import Mathlib

/-!
Shallow embedding of the BEMS dashboard script (src/streamlit_app.py) and
verification of its specification.

Modelling choices:
* A timestamp is the number of minutes since the window origin
  (Nov 1 2025, 00:00).  The hour of a timestamp is `t / 60 % 24` and its
  calendar date is the day index `t / 1440` — exact, since the window
  (Nov 1 00:00 … Nov 23 23:59) stays inside one month.
* `np.random.uniform` draws are modelled by explicit draw functions
  `v c : String → Nat → ℚ` giving the voltage and current draw for a
  (room, minute) pair; theorems that need it assume the draws lie in the
  support of the distributions used by the source ([220,240) resp. [5,10)).
* Python floats are modelled by exact rationals.
* A pandas dataframe is a list of rows; `df[mask]` is `List.filter`,
  column sums are sums over the mapped column.
* A Python dict is an association list with dict update semantics
  (replace in place on existing key, append on new key); `del d[k]` on an
  absent key raises `KeyError`, modelled as the `notFound` error value
  with the state unchanged.
-/

/-- One row of the generated dataframe (the columns of line 34 of the source). -/
structure Reading where
  timestamp : Nat
  room_id : String
  floor : String
  voltage : ℚ
  current : ℚ
  power : ℚ
  energy_kwh : ℚ
  bill_taka : ℚ
  carbon_gco2 : ℚ
  status : String
deriving DecidableEq

/-- `date.hour` for a timestamp counted in minutes. -/
def hourOf (t : Nat) : Nat := t / 60 % 24

/-- `date.date()` as a day index, for a timestamp counted in minutes. -/
def dateOf (t : Nat) : Nat := t / 1440

/-- The body of the generator loop (lines 24–32 of the source): one row for a
(room, minute) pair, given the two random draws for that pair. -/
def mkReading (room floor : String) (t : Nat) (v c : ℚ) : Reading :=
  let voltage := v
  let current := if 8 ≤ hourOf t ∧ hourOf t < 20 then c else 0
  let power := voltage * current
  let energy_kwh := power / 1000 / 60
  let bill_taka := energy_kwh * 5
  let carbon_gco2 := energy_kwh * 500
  let status := if hourOf t < 8 ∨ 20 ≤ hourOf t then "off" else "on"
  { timestamp := t, room_id := room, floor := floor, voltage := voltage,
    current := current, power := power, energy_kwh := energy_kwh,
    bill_taka := bill_taka, carbon_gco2 := carbon_gco2, status := status }

/-- `pd.date_range(start, end, freq='T')` for minute-aligned bounds: every
minute from `s` to `e` inclusive. -/
def dateRange (s e : Nat) : List Nat := (List.range (e + 1 - s)).map (fun i => s + i)

/-- The fixed room list of line 18. -/
def rooms : List String := ["101", "102", "103", "201", "202", "203", "301", "302", "303"]

/-- The fixed floor list of line 19 (`['1']*3 + ['2']*3 + ['3']*3`). -/
def floors : List String := ["1", "1", "1", "2", "2", "2", "3", "3", "3"]

/-- `zip(rooms, floors)` of line 22. -/
def roomFloors : List (String × String) := rooms.zip floors

/-- Start of the fixed window: Nov 1 2025, 00:00 (line 13). -/
def startT : Nat := 0

/-- End of the fixed window: Nov 23 2025, 23:59 (line 14), in minutes. -/
def endT : Nat := 22 * 1440 + 1439

/-- `generate_data` (lines 11–36): one row per (room, minute) pair of the
cross product, rooms outermost, minutes innermost, with the per-pair random
draws supplied by `v` and `c`. -/
def generate_data (v c : String → Nat → ℚ) (s e : Nat)
    (rf : List (String × String)) : List Reading :=
  rf.flatMap fun p => (dateRange s e).map fun t => mkReading p.1 p.2 t (v p.1 t) (c p.1 t)

/-- `filtered_df` (line 56): rows whose timestamp's date lies in the inclusive
day range `[s, e]`. -/
def filtered_df (df : List Reading) (s e : Nat) : List Reading :=
  df.filter fun r => decide (s ≤ dateOf r.timestamp) && decide (dateOf r.timestamp ≤ e)

/-- `filtered_df['energy_kwh'].sum()` (line 66). -/
def total_energy (df : List Reading) : ℚ := (df.map Reading.energy_kwh).sum

/-- `filtered_df['bill_taka'].sum()` (line 67). -/
def total_bill (df : List Reading) : ℚ := (df.map Reading.bill_taka).sum

/-- `filtered_df['carbon_gco2'].sum()` (line 68). -/
def total_carbon (df : List Reading) : ℚ := (df.map Reading.carbon_gco2).sum

/-! ### Structural lemmas about the generator -/

theorem length_dateRange (s e : Nat) : (dateRange s e).length = e + 1 - s := by
  simp [dateRange]

theorem mem_dateRange {s e t : Nat} : t ∈ dateRange s e ↔ s ≤ t ∧ t < e + 1 := by
  constructor
  · intro h
    simp only [dateRange, List.mem_map, List.mem_range] at h
    obtain ⟨i, hi, rfl⟩ := h
    omega
  · intro h
    simp only [dateRange, List.mem_map, List.mem_range]
    exact ⟨t - s, by omega, by omega⟩

theorem mem_generate_data {v c : String → Nat → ℚ} {s e : Nat}
    {rf : List (String × String)} {r : Reading} :
    r ∈ generate_data v c s e rf ↔
      ∃ p ∈ rf, ∃ t ∈ dateRange s e, r = mkReading p.1 p.2 t (v p.1 t) (c p.1 t) := by
  simp only [generate_data, List.mem_flatMap, List.mem_map]
  constructor
  · rintro ⟨p, hp, t, ht, rfl⟩
    exact ⟨p, hp, t, ht, rfl⟩
  · rintro ⟨p, hp, t, ht, rfl⟩
    exact ⟨p, hp, t, ht, rfl⟩

/-! ### Field reductions for `mkReading` -/

theorem mkReading_current_on {room floor : String} {t : Nat} {v c : ℚ}
    (h : 8 ≤ hourOf t ∧ hourOf t < 20) : (mkReading room floor t v c).current = c :=
  if_pos h

theorem mkReading_current_off {room floor : String} {t : Nat} {v c : ℚ}
    (h : ¬(8 ≤ hourOf t ∧ hourOf t < 20)) : (mkReading room floor t v c).current = 0 :=
  if_neg h

theorem mkReading_status_off {room floor : String} {t : Nat} {v c : ℚ}
    (h : hourOf t < 8 ∨ 20 ≤ hourOf t) : (mkReading room floor t v c).status = "off" :=
  if_pos h

theorem mkReading_status_on {room floor : String} {t : Nat} {v c : ℚ}
    (h : ¬(hourOf t < 8 ∨ 20 ≤ hourOf t)) : (mkReading room floor t v c).status = "on" :=
  if_neg h

/-! ### Concrete draw functions used by the witnesses -/

/-- A concrete voltage draw (a value `np.random.uniform(220, 240)` can take). -/
def vTest : String → Nat → ℚ := fun _ _ => 230

/-- A second concrete voltage draw, used to exhibit draw-independence. -/
def vTest2 : String → Nat → ℚ := fun _ _ => 231

/-- A concrete current draw (a value `np.random.uniform(5, 10)` can take). -/
def cTest : String → Nat → ℚ := fun _ _ => 7

/-- A second concrete current draw. -/
def cTest2 : String → Nat → ℚ := fun _ _ => 6

/-- The first row of the one-minute table generated with the test draws. -/
def rTest : Reading := mkReading "101" "1" 0 (vTest "101" 0) (cTest "101" 0)

theorem rTest_mem : rTest ∈ generate_data vTest cTest 0 0 roomFloors :=
  mem_generate_data.mpr ⟨("101", "1"), by decide, 0, by decide, rfl⟩

theorem cTest_support : ∀ room t, 5 ≤ cTest room t ∧ cTest room t < 10 :=
  fun _ _ => ⟨(by decide : (5 : ℚ) ≤ 7), (by decide : (7 : ℚ) < 10)⟩

/-! ### C1 and C2 -/

/-- C1: for every Reading produced by the data generator (with current draws in
the support [5,10) of the distribution the source uses), `current = 0` holds
iff `status = "off"`, and both hold iff the timestamp's hour lies outside
[8, 20). -/
theorem generated_on_off_invariant (v c : String → Nat → ℚ) (s e : Nat)
    (rf : List (String × String)) (hc : ∀ room t, 5 ≤ c room t ∧ c room t < 10)
    (r : Reading) (hr : r ∈ generate_data v c s e rf) :
    (r.current = 0 ↔ r.status = "off") ∧
      ((r.current = 0 ∧ r.status = "off") ↔
        ¬(8 ≤ hourOf r.timestamp ∧ hourOf r.timestamp < 20)) := by
  obtain ⟨p, hp, t, ht, rfl⟩ := mem_generate_data.mp hr
  have h5 : (5 : ℚ) ≤ c p.1 t := (hc p.1 t).1
  have hpos : (0 : ℚ) < c p.1 t := lt_of_lt_of_le (by norm_num) h5
  by_cases hh : 8 ≤ hourOf t ∧ hourOf t < 20
  · have hne : ¬(hourOf t < 8 ∨ 20 ≤ hourOf t) := by omega
    rw [mkReading_current_on hh, mkReading_status_on hne]
    have hcne : c p.1 t ≠ 0 := ne_of_gt hpos
    have hson : ¬(("on" : String) = "off") := by decide
    exact ⟨iff_of_false hcne hson,
      iff_of_false (fun hand => hcne hand.1) (not_not_intro hh)⟩
  · have hor : hourOf t < 8 ∨ 20 ≤ hourOf t := by omega
    rw [mkReading_current_off hh, mkReading_status_off hor]
    exact ⟨iff_of_true rfl rfl, iff_of_true ⟨rfl, rfl⟩ hh⟩

/-- Witness for C1 at a concrete generated reading (room 101, minute 0, hour 0:
off hours). -/
theorem generated_on_off_invariant_witness :
    (rTest.current = 0 ↔ rTest.status = "off") ∧
      ((rTest.current = 0 ∧ rTest.status = "off") ↔
        ¬(8 ≤ hourOf rTest.timestamp ∧ hourOf rTest.timestamp < 20)) :=
  generated_on_off_invariant vTest cTest 0 0 roomFloors cTest_support rTest rTest_mem

/-- C2: every generated Reading satisfies the derivation equations of the
source exactly: `power = voltage * current`, `energy_kwh = power / 1000 / 60`,
`bill_taka = energy_kwh * 5`, `carbon_gco2 = energy_kwh * 500`. -/
theorem generated_derived_fields (v c : String → Nat → ℚ) (s e : Nat)
    (rf : List (String × String)) (r : Reading) (hr : r ∈ generate_data v c s e rf) :
    r.power = r.voltage * r.current ∧ r.energy_kwh = r.power / 1000 / 60 ∧
      r.bill_taka = r.energy_kwh * 5 ∧ r.carbon_gco2 = r.energy_kwh * 500 := by
  obtain ⟨p, hp, t, ht, rfl⟩ := mem_generate_data.mp hr
  exact ⟨rfl, rfl, rfl, rfl⟩

/-- Witness for C2 at a concrete generated reading. -/
theorem generated_derived_fields_witness :
    rTest.power = rTest.voltage * rTest.current ∧
      rTest.energy_kwh = rTest.power / 1000 / 60 ∧
      rTest.bill_taka = rTest.energy_kwh * 5 ∧
      rTest.carbon_gco2 = rTest.energy_kwh * 500 :=
  generated_derived_fields vTest cTest 0 0 roomFloors rTest rTest_mem

/-! ### C3: row count -/

theorem length_generate_data (v c : String → Nat → ℚ) (s e : Nat)
    (rf : List (String × String)) :
    (generate_data v c s e rf).length = rf.length * (e + 1 - s) := by
  induction rf with
  | nil => simp [generate_data]
  | cons p ps ih =>
    simp only [generate_data, List.flatMap_cons, List.length_append, List.length_map,
      length_dateRange, List.length_cons] at ih ⊢
    rw [ih]
    ring

/-- C3: with the fixed list of 9 (room, floor) pairs and any minute-aligned
window with start ≤ end, the generator yields exactly
`9 * ((end - start) in minutes + 1)` rows, and the row count does not depend
on the random draws, so generating twice gives identical row counts. -/
theorem generate_row_count (v c v' c' : String → Nat → ℚ) (s e : Nat) (h : s ≤ e) :
    (generate_data v c s e roomFloors).length = 9 * (e - s + 1) ∧
      (generate_data v' c' s e roomFloors).length =
        (generate_data v c s e roomFloors).length := by
  have h1 := length_generate_data v c s e roomFloors
  have h2 := length_generate_data v' c' s e roomFloors
  have h9 : roomFloors.length = 9 := by decide
  refine ⟨?_, by rw [h1, h2]⟩
  rw [h1, h9]
  omega

/-- Witness for C3: a 3-minute window gives 27 rows with either pair of draws. -/
theorem generate_row_count_witness :
    (generate_data vTest cTest 0 2 roomFloors).length = 9 * (2 - 0 + 1) ∧
      (generate_data vTest2 cTest2 0 2 roomFloors).length =
        (generate_data vTest cTest 0 2 roomFloors).length :=
  generate_row_count vTest cTest vTest2 cTest2 0 2 (by decide)

/-! ### C10: floor derived from room id -/

/-- C10: every generated Reading's floor is the first character of its room
id, and each of the three floors has exactly 3 of the 9 rooms. -/
theorem floor_from_room (v c : String → Nat → ℚ) (s e : Nat) (r : Reading)
    (hr : r ∈ generate_data v c s e roomFloors) :
    r.floor = r.room_id.take 1 ∧
      (roomFloors.filter (fun p => p.2 == "1")).length = 3 ∧
      (roomFloors.filter (fun p => p.2 == "2")).length = 3 ∧
      (roomFloors.filter (fun p => p.2 == "3")).length = 3 := by
  obtain ⟨p, hp, t, ht, rfl⟩ := mem_generate_data.mp hr
  refine ⟨?_, by decide, by decide, by decide⟩
  have hall : ∀ q ∈ roomFloors, q.2 = q.1.take 1 := by decide
  exact hall p hp

/-- Witness for C10 at a concrete generated reading. -/
theorem floor_from_room_witness :
    rTest.floor = rTest.room_id.take 1 ∧
      (roomFloors.filter (fun p => p.2 == "1")).length = 3 ∧
      (roomFloors.filter (fun p => p.2 == "2")).length = 3 ∧
      (roomFloors.filter (fun p => p.2 == "3")).length = 3 :=
  floor_from_room vTest cTest 0 0 rTest rTest_mem

/-! ### C4: the date-range filter -/

/-- C4: the range filter keeps exactly the rows whose date lies in
`[s, e]`; an empty result (in particular whenever `e < s`) gives zero sums,
and nothing fails: the filter and the sums are total functions. -/
theorem filtered_df_spec (df : List Reading) (s e : Nat) :
    (∀ r, r ∈ filtered_df df s e ↔
        (r ∈ df ∧ s ≤ dateOf r.timestamp ∧ dateOf r.timestamp ≤ e)) ∧
      (filtered_df df s e = [] →
        total_energy (filtered_df df s e) = 0 ∧
          total_bill (filtered_df df s e) = 0 ∧
          total_carbon (filtered_df df s e) = 0) ∧
      (e < s → filtered_df df s e = []) := by
  refine ⟨?_, ?_, ?_⟩
  · intro r
    simp [filtered_df, List.mem_filter, and_assoc]
  · intro h
    rw [h]
    exact ⟨rfl, rfl, rfl⟩
  · intro hlt
    apply List.filter_eq_nil_iff.mpr
    intro r _
    simp only [Bool.and_eq_true, decide_eq_true_eq, not_and]
    omega

/-- Witness for C4: an inverted day range on a concrete 2-minute table gives
the empty table and a zero energy sum. -/
theorem filtered_df_spec_witness :
    filtered_df (generate_data vTest cTest 0 1 roomFloors) 5 3 = [] ∧
      total_energy (filtered_df (generate_data vTest cTest 0 1 roomFloors) 5 3) = 0 := by
  have h := filtered_df_spec (generate_data vTest cTest 0 1 roomFloors) 5 3
  have he := h.2.2 (by decide)
  exact ⟨he, (h.2.1 he).1⟩

/-! ### C9: a range covering the whole window keeps every row -/

theorem gen_dateOf_le (v c : String → Nat → ℚ) (r : Reading)
    (hr : r ∈ generate_data v c startT endT roomFloors) : dateOf r.timestamp ≤ 22 := by
  obtain ⟨p, hp, t, ht, rfl⟩ := mem_generate_data.mp hr
  have hm := mem_dateRange.mp ht
  simp only [startT, endT] at hm
  show t / 1440 ≤ 22
  omega

/-- C9: filtering the full fixed-window table by a date range that covers the
whole window (days 0 … 22) returns the table itself, so the three aggregate
sums equal the sums over the unfiltered table exactly. -/
theorem full_range_filter_sums (v c : String → Nat → ℚ) (s e : Nat)
    (hs : s = 0) (he : 22 ≤ e) :
    filtered_df (generate_data v c startT endT roomFloors) s e =
        generate_data v c startT endT roomFloors ∧
      total_energy (filtered_df (generate_data v c startT endT roomFloors) s e) =
        total_energy (generate_data v c startT endT roomFloors) ∧
      total_bill (filtered_df (generate_data v c startT endT roomFloors) s e) =
        total_bill (generate_data v c startT endT roomFloors) ∧
      total_carbon (filtered_df (generate_data v c startT endT roomFloors) s e) =
        total_carbon (generate_data v c startT endT roomFloors) := by
  subst hs
  have heq : filtered_df (generate_data v c startT endT roomFloors) 0 e =
      generate_data v c startT endT roomFloors := by
    apply List.filter_eq_self.mpr
    intro r hr
    have hle := gen_dateOf_le v c r hr
    simp only [Bool.and_eq_true, decide_eq_true_eq]
    omega
  exact ⟨heq, by rw [heq], by rw [heq], by rw [heq]⟩

/-- Witness for C9 with the concrete draws and the exact UI default range
(Nov 1 … Nov 23, i.e. days 0 … 22). -/
theorem full_range_filter_sums_witness :
    filtered_df (generate_data vTest cTest startT endT roomFloors) 0 22 =
        generate_data vTest cTest startT endT roomFloors ∧
      total_energy (filtered_df (generate_data vTest cTest startT endT roomFloors) 0 22) =
        total_energy (generate_data vTest cTest startT endT roomFloors) ∧
      total_bill (filtered_df (generate_data vTest cTest startT endT roomFloors) 0 22) =
        total_bill (generate_data vTest cTest startT endT roomFloors) ∧
      total_carbon (filtered_df (generate_data vTest cTest startT endT roomFloors) 0 22) =
        total_carbon (generate_data vTest cTest startT endT roomFloors) :=
  full_range_filter_sums vTest cTest 0 22 rfl (by decide)

/-! ### The device registry (session state `devices`, lines 42–43 and 158–179) -/

/-- The error conditions of the spec's taxonomy that the registry handlers can
hit. -/
inductive RegError where
  | notFound
  | invalidInput
deriving DecidableEq

/-- Python dict insert-or-update (`devices[new_room] = new_device`, line 172):
replace in place when the key is present, append otherwise. -/
def regInsert : List (String × String) → String → String → List (String × String)
  | [], k, v => [(k, v)]
  | (k', v') :: rest, k, v =>
    if k' = k then (k, v) :: rest else (k', v') :: regInsert rest k v

/-- The initial registry of line 43: one device per room. -/
def initialDevices : List (String × String) := rooms.map fun r => (r, "device_" ++ r)

/-- `list(devices.items())` (line 164): full enumeration of the registry. -/
def enumerateDevices (reg : List (String × String)) : List (String × String) := reg

/-- The Add/Update Device handler (lines 170–173): Python string truthiness
makes the guard `new_room and new_device` succeed exactly when both strings
are non-empty; the Bool records whether the update (and its success message)
ran. -/
def addUpdateDevice (reg : List (String × String)) (room dev : String) :
    List (String × String) × Bool :=
  if room ≠ "" ∧ dev ≠ "" then (regInsert reg room dev, true) else (reg, false)

/-- The Delete Device handler (lines 177–179): `del st.session_state.devices[k]`
removes the entry when the key is present; on an absent key Python raises
`KeyError`, which the framework reports as a user-visible error message while
the session state is left unchanged — modelled by returning the `notFound`
error value together with the unchanged registry. -/
def deleteDevice (reg : List (String × String)) (k : String) :
    List (String × String) × Option RegError :=
  match reg.lookup k with
  | some _ => (reg.eraseP (fun p => p.1 == k), none)
  | none => (reg, some RegError.notFound)

/-- Modelled from the spec: the source materializes no `InvalidInput` error
value — the Add/Update guard of line 171 silently skips the update — so the
spec's `InvalidInput` condition (§7) is modelled as the proposition that the
guard rejects. -/
def InvalidInput (room dev : String) : Prop := room = "" ∨ dev = ""

theorem lookup_regInsert (reg : List (String × String)) (k v : String) :
    (regInsert reg k v).lookup k = some v := by
  induction reg with
  | nil => simp [regInsert, List.lookup]
  | cons p rest ih =>
    obtain ⟨k', v'⟩ := p
    by_cases h : k' = k
    · simp [regInsert, h, List.lookup]
    · have hne : (k == k') = false := by
        simp [Ne.symm h]
      simp [regInsert, h, List.lookup, hne, ih]

theorem mem_regInsert (reg : List (String × String)) (k v : String) :
    (k, v) ∈ regInsert reg k v := by
  induction reg with
  | nil => simp [regInsert]
  | cons p rest ih =>
    obtain ⟨k', v'⟩ := p
    by_cases h : k' = k
    · simp [regInsert, h]
    · simp [regInsert, h, ih]

/-! ### C7 and C8 -/

/-- C7: a delete requested for a key absent from the registry hits the
`notFound` (KeyError) condition, which is reported as a value — the handler
stays a total function, so the dashboard survives it — and the registry it
returns is the unchanged one. -/
theorem delete_device_missing (reg : List (String × String)) (k : String)
    (h : reg.lookup k = none) :
    deleteDevice reg k = (reg, some RegError.notFound) := by
  simp [deleteDevice, h]

/-- Witness for C7: deleting the never-inserted room 999 from the initial
registry reports `notFound` and leaves the registry as it was. -/
theorem delete_device_missing_witness :
    deleteDevice initialDevices "999" = (initialDevices, some RegError.notFound) :=
  delete_device_missing initialDevices "999" (by decide)

/-- C8: insert-or-update with non-empty room and device identifiers stores
exactly that pair — a subsequent enumeration contains it and lookup returns
it — while an empty room or device identifier is the `InvalidInput` condition,
on which the handler performs no update and the registry is unchanged. -/
theorem add_update_device_spec (reg : List (String × String)) (room dev : String) :
    (room ≠ "" → dev ≠ "" →
        addUpdateDevice reg room dev = (regInsert reg room dev, true) ∧
          (regInsert reg room dev).lookup room = some dev ∧
          (room, dev) ∈ enumerateDevices (regInsert reg room dev)) ∧
      (InvalidInput room dev → addUpdateDevice reg room dev = (reg, false)) := by
  constructor
  · intro h1 h2
    exact ⟨if_pos ⟨h1, h2⟩, lookup_regInsert reg room dev, mem_regInsert reg room dev⟩
  · intro h
    have hng : ¬(room ≠ "" ∧ dev ≠ "") := by
      rcases h with h | h
      · exact fun hc => hc.1 h
      · exact fun hc => hc.2 h
    exact if_neg hng

/-- Witness for C8: adding (201, dev_201) to the initial registry stores and
enumerates the pair, and an empty room id leaves the registry unchanged. -/
theorem add_update_device_spec_witness :
    (addUpdateDevice initialDevices "201" "dev_201" =
        (regInsert initialDevices "201" "dev_201", true) ∧
      (regInsert initialDevices "201" "dev_201").lookup "201" = some "dev_201" ∧
      ("201", "dev_201") ∈ enumerateDevices (regInsert initialDevices "201" "dev_201")) ∧
      addUpdateDevice initialDevices "" "dev_x" = (initialDevices, false) :=
  ⟨(add_update_device_spec initialDevices "201" "dev_201").1 (by decide) (by decide),
    (add_update_device_spec initialDevices "" "dev_x").2 (Or.inl rfl)⟩

/-! ### C6: the floor power trend -/

/-- `filtered_df[filtered_df['floor'] == selected_floor]` (line 98). -/
def floorGroup (df : List Reading) (f : String) : List Reading :=
  df.filter fun r => r.floor == f

/-- The distinct timestamps of a table in ascending order: pandas
`groupby('timestamp')` enumerates its group keys sorted ascending. -/
def trendTimes (df : List Reading) : List Nat :=
  List.insertionSort (· ≤ ·) (df.map Reading.timestamp).dedup

/-- `floor_df.groupby('timestamp')['power'].sum().reset_index()` (line 109):
one (timestamp, summed power) row per distinct timestamp, keys ascending. -/
def floor_trend (df : List Reading) : List (Nat × ℚ) :=
  (trendTimes df).map fun t =>
    (t, ((df.filter fun r => r.timestamp == t).map Reading.power).sum)

theorem map_fst_floor_trend (df : List Reading) :
    (floor_trend df).map Prod.fst = trendTimes df := by
  simp [floor_trend, List.map_map, Function.comp_def]

theorem mem_trendTimes {df : List Reading} {t : Nat} :
    t ∈ trendTimes df ↔ t ∈ df.map Reading.timestamp := by
  rw [trendTimes, (List.perm_insertionSort (· ≤ ·) _).mem_iff]
  exact List.mem_dedup

theorem trendTimes_lt_sorted (df : List Reading) : (trendTimes df).Pairwise (· < ·) := by
  have hs : (trendTimes df).Pairwise (· ≤ ·) :=
    List.sorted_insertionSort (· ≤ ·) (df.map Reading.timestamp).dedup
  have hn : (trendTimes df).Pairwise (· ≠ ·) :=
    ((List.perm_insertionSort (· ≤ ·) _).nodup_iff).mpr (List.nodup_dedup _)
  exact (hs.and hn).imp fun h => lt_of_le_of_ne h.1 h.2

/-- C6: grouping a floor's filtered readings by timestamp gives a trend
series whose timestamps are strictly ascending, with exactly one entry per
distinct timestamp of the floor's readings, and whose value at each entry is
the summed power of that floor's readings at that timestamp. -/
theorem floor_trend_spec (df : List Reading) (f : String) :
    ((floor_trend (floorGroup df f)).map Prod.fst).Pairwise (· < ·) ∧
      (∀ t : Nat, t ∈ (floor_trend (floorGroup df f)).map Prod.fst ↔
        ∃ r ∈ floorGroup df f, r.timestamp = t) ∧
      ∀ p ∈ floor_trend (floorGroup df f),
        p.2 = (((floorGroup df f).filter fun r => r.timestamp == p.1).map
          Reading.power).sum := by
  refine ⟨?_, ?_, ?_⟩
  · rw [map_fst_floor_trend]
    exact trendTimes_lt_sorted (floorGroup df f)
  · intro t
    rw [map_fst_floor_trend, mem_trendTimes, List.mem_map]
  · intro p hp
    obtain ⟨t, ht, rfl⟩ := List.mem_map.mp hp
    rfl

/-! ### C5: the per-room tile summary -/

/-- The rows `filtered_df.groupby('room_id')` collects for one key: the rows
of the dataframe whose room is `rm`, in dataframe order. -/
def roomGroup (df : List Reading) (rm : String) : List Reading :=
  df.filter fun x => x.room_id == rm

/-- The distinct room ids of a table, in order of first appearance.  (pandas
sorts group keys ascending; the generator emits rooms in ascending order, so
on any table derived from it the two orders coincide, and no claim depends on
row order.) -/
def rooms_of (df : List Reading) : List String := (df.map Reading.room_id).dedup

/-- One row of the `room_summaries` dataframe (lines 75–81). -/
structure RoomSummary where
  room_id : String
  power : ℚ
  status : String
  energy_kwh : ℚ
  bill_taka : ℚ
  carbon_gco2 : ℚ
deriving DecidableEq

/-- The `.agg` row for one room (lines 75–81): mean power, last status,
summed energy, bill and carbon over the room's rows.  (pandas `'last'` takes
the final row of the group in dataframe order; the mean of an `n`-row group
is its sum over `n`.) -/
def summarizeRoom (df : List Reading) (rm : String) : RoomSummary :=
  { room_id := rm,
    power := ((roomGroup df rm).map Reading.power).sum / ((roomGroup df rm).length : ℚ),
    status := (((roomGroup df rm).map Reading.status).getLast?).getD "",
    energy_kwh := total_energy (roomGroup df rm),
    bill_taka := total_bill (roomGroup df rm),
    carbon_gco2 := total_carbon (roomGroup df rm) }

/-- `room_summaries` (lines 75–81): one aggregated row per distinct room. -/
def room_summaries (df : List Reading) : List RoomSummary :=
  (rooms_of df).map (summarizeRoom df)

/-- The dashboard's displayed table: a generated table (window `gs … ge`)
filtered to the day range `ds … de`. -/
def viewTable (v c : String → Nat → ℚ) (gs ge ds de : Nat) : List Reading :=
  filtered_df (generate_data v c gs ge roomFloors) ds de

/-- Rows of the same room appear in strictly increasing timestamp order. -/
def PairKey : Reading → Reading → Prop :=
  fun a b => a.room_id = b.room_id → a.timestamp < b.timestamp

theorem pairwise_dateRange (s e : Nat) : (dateRange s e).Pairwise (· < ·) :=
  List.pairwise_map.mpr
    ((List.pairwise_lt_range (e + 1 - s)).imp fun h => Nat.add_lt_add_left h s)

theorem pairwise_generate_data (v c : String → Nat → ℚ) (s e : Nat)
    (rf : List (String × String)) (hrf : rf.Pairwise fun p q => p.1 ≠ q.1) :
    (generate_data v c s e rf).Pairwise PairKey := by
  induction rf with
  | nil => simp [generate_data]
  | cons p ps ih =>
    obtain ⟨hhead, htail⟩ := List.pairwise_cons.mp hrf
    simp only [generate_data, List.flatMap_cons]
    rw [List.pairwise_append]
    refine ⟨?_, ih htail, ?_⟩
    · exact List.pairwise_map.mpr ((pairwise_dateRange s e).imp fun h => fun _ => h)
    · intro x hx y hy
      obtain ⟨tx, htx, rfl⟩ := List.mem_map.mp hx
      obtain ⟨q, hq, ty, hty, rfl⟩ := mem_generate_data.mp hy
      intro hroom
      exact absurd hroom (hhead q hq)

theorem viewTable_pairwise (v c : String → Nat → ℚ) (gs ge ds de : Nat) :
    (viewTable v c gs ge ds de).Pairwise PairKey :=
  (pairwise_generate_data v c gs ge roomFloors (by decide)).sublist
    (List.filter_sublist _)

theorem viewTable_rooms (v c : String → Nat → ℚ) (gs ge ds de : Nat) :
    ∀ r ∈ viewTable v c gs ge ds de, r.room_id ∈ rooms := by
  intro r hr
  have hr2 : r ∈ generate_data v c gs ge roomFloors := List.mem_of_mem_filter hr
  obtain ⟨p, hp, t, ht, rfl⟩ := mem_generate_data.mp hr2
  have hall : ∀ q ∈ roomFloors, q.1 ∈ rooms := by decide
  exact hall p hp

theorem pairwise_lt_last {l : List Reading} :
    l.Pairwise (fun a b => a.timestamp < b.timestamp) →
      ∀ {x : Reading}, l.getLast? = some x → ∀ y ∈ l, y.timestamp ≤ x.timestamp := by
  induction l with
  | nil =>
    intro _ x _ y hy
    exact absurd hy (List.not_mem_nil y)
  | cons a t ih =>
    intro hp x hx y hy
    obtain ⟨ha, hp2⟩ := List.pairwise_cons.mp hp
    cases t with
    | nil =>
      have hxa : a = x := by simpa using hx
      rcases List.mem_singleton.mp hy with rfl
      exact le_of_eq (by rw [hxa])
    | cons b t2 =>
      have hx2 : (b :: t2).getLast? = some x := by
        rwa [List.getLast?_cons_cons] at hx
      rcases List.mem_cons.mp hy with rfl | hy2
      · have hxmem : x ∈ b :: t2 := List.mem_of_mem_getLast? (Option.mem_def.mpr hx2)
        exact le_of_lt (ha x hxmem)
      · exact ih hp2 hx2 y hy2

/-- C5: each row of the per-room tile summary of a displayed table carries
the mean power and the summed energy, bill and carbon of that room's rows,
and its status comes from a row of maximal timestamp of that room (the
positional `'last'` of the source equals last-by-timestamp because the
generator emits each room's readings in ascending timestamp order and
filtering preserves that); the summary has exactly one row per distinct room
of the table, hence at most 9. -/
theorem room_summaries_spec (v c : String → Nat → ℚ) (gs ge ds de : Nat)
    (sr : RoomSummary) (hsr : sr ∈ room_summaries (viewTable v c gs ge ds de)) :
    (room_summaries (viewTable v c gs ge ds de)).length =
        (rooms_of (viewTable v c gs ge ds de)).length ∧
      (rooms_of (viewTable v c gs ge ds de)).length ≤ 9 ∧
      sr.power = ((roomGroup (viewTable v c gs ge ds de) sr.room_id).map
          Reading.power).sum /
        ((roomGroup (viewTable v c gs ge ds de) sr.room_id).length : ℚ) ∧
      sr.energy_kwh = total_energy (roomGroup (viewTable v c gs ge ds de) sr.room_id) ∧
      sr.bill_taka = total_bill (roomGroup (viewTable v c gs ge ds de) sr.room_id) ∧
      sr.carbon_gco2 = total_carbon (roomGroup (viewTable v c gs ge ds de) sr.room_id) ∧
      ∃ x ∈ roomGroup (viewTable v c gs ge ds de) sr.room_id,
        sr.status = x.status ∧
          ∀ y ∈ roomGroup (viewTable v c gs ge ds de) sr.room_id,
            y.timestamp ≤ x.timestamp := by
  obtain ⟨rm, hrm, rfl⟩ := List.mem_map.mp hsr
  refine ⟨by simp [room_summaries], ?_, rfl, rfl, rfl, rfl, ?_⟩
  · have hnd : (rooms_of (viewTable v c gs ge ds de)).Nodup := List.nodup_dedup _
    have hsub : rooms_of (viewTable v c gs ge ds de) ⊆ rooms := by
      intro a ha
      obtain ⟨r, hr, rfl⟩ := List.mem_map.mp (List.mem_dedup.mp ha)
      exact viewTable_rooms v c gs ge ds de r hr
    have hle := (List.subperm_of_subset hnd hsub).length_le
    simpa [rooms] using hle
  · obtain ⟨a, ha, haeq⟩ := List.mem_map.mp (List.mem_dedup.mp hrm)
    have hag : a ∈ roomGroup (viewTable v c gs ge ds de) rm :=
      List.mem_filter.mpr ⟨ha, by simp [haeq]⟩
    have hgne : roomGroup (viewTable v c gs ge ds de) rm ≠ [] := by
      intro h0
      rw [h0] at hag
      exact absurd hag (List.not_mem_nil a)
    obtain ⟨x, hx⟩ := Option.isSome_iff_exists.mp (List.getLast?_isSome.mpr hgne)
    have hpw : (roomGroup (viewTable v c gs ge ds de) rm).Pairwise
        (fun a b => a.timestamp < b.timestamp) := by
      have h1 : (roomGroup (viewTable v c gs ge ds de) rm).Pairwise PairKey :=
        (viewTable_pairwise v c gs ge ds de).sublist (List.filter_sublist _)
      have hall : ∀ z ∈ roomGroup (viewTable v c gs ge ds de) rm, z.room_id = rm := by
        intro z hz
        have hb := (List.mem_filter.mp hz).2
        simpa using hb
      exact h1.imp_of_mem fun hma hmb hr => hr (by rw [hall _ hma, hall _ hmb])
    refine ⟨x, List.mem_of_mem_getLast? (Option.mem_def.mpr hx), ?_, ?_⟩
    · show (((roomGroup (viewTable v c gs ge ds de) rm).map Reading.status).getLast?).getD ""
        = x.status
      rw [List.getLast?_map, hx]
      rfl
    · exact pairwise_lt_last hpw hx

/-- The one-minute, full-day-range displayed table with the test draws. -/
def viewTest : List Reading := viewTable vTest cTest 0 0 0 0

/-- The tile summary row of room 101 in the test table. -/
def srTest : RoomSummary := summarizeRoom viewTest "101"

/-- Witness for C5 at the concrete test table and room 101's summary row. -/
theorem room_summaries_spec_witness :
    (room_summaries viewTest).length = (rooms_of viewTest).length ∧
      (rooms_of viewTest).length ≤ 9 ∧
      srTest.power = ((roomGroup viewTest srTest.room_id).map Reading.power).sum /
        ((roomGroup viewTest srTest.room_id).length : ℚ) ∧
      srTest.energy_kwh = total_energy (roomGroup viewTest srTest.room_id) ∧
      srTest.bill_taka = total_bill (roomGroup viewTest srTest.room_id) ∧
      srTest.carbon_gco2 = total_carbon (roomGroup viewTest srTest.room_id) ∧
      ∃ x ∈ roomGroup viewTest srTest.room_id,
        srTest.status = x.status ∧
          ∀ y ∈ roomGroup viewTest srTest.room_id, y.timestamp ≤ x.timestamp :=
  room_summaries_spec vTest cTest 0 0 0 0 srTest
    (List.mem_map.mpr ⟨"101", by decide, rfl⟩)

/-- Witness for C6: the trend series of floor 1 of the concrete test table
has strictly ascending timestamps. -/
theorem floor_trend_spec_witness :
    ((floor_trend (floorGroup viewTest "1")).map Prod.fst).Pairwise (· < ·) :=
  (floor_trend_spec viewTest "1").1
